import Mathlib

/-!
Verification of the statistical-arbitrage pairs screener.

The repository ships a React frontend (under frontend/src) and delegates all
screening and backtesting computation to a FastAPI backend that is not part of
the available sources.  Frontend logic (results filtering, pagination, the
correlation heatmap, the backtest request form, the run-screening button and
the zone rendering conditions) is embedded directly from the TypeScript
sources.  Engine-level behaviour (the backtest simulator, the screening
session state machine, MAE tracking, Kelly sizing and the per-zone return
probabilities) is modelled from the specification, as marked on each
definition.

Numeric values are embedded as rationals; asset identifiers as strings.
-/

namespace PairsScreener

/-! Data model (from frontend/src/services/api.ts) -/

/-- A screened pair row, embedding the fields of the PairResult interface in
frontend/src/services/api.ts that the filtering, sorting and heatmap logic
reads.  Optional statistics are embedded as Option. -/
structure PairResult where
  asset_a : String
  asset_b : String
  correlation : ℚ
  adf_pvalue : ℚ
  beta : ℚ
  spread_std : ℚ
  hurst_exponent : Option ℚ
  current_zscore : Option ℚ
deriving DecidableEq, Repr

/-! Correlation heatmap (from CorrelationHeatmap, src/unnamed/part_006) -/

/-- Embeds the pair lookup inside correlationMatrix in CorrelationHeatmap:
pairs.find matching either orientation of the two asset names. -/
def findPair (pairs : List PairResult) (a b : String) : Option PairResult :=
  pairs.find? (fun p =>
    (p.asset_a == a && p.asset_b == b) || (p.asset_a == b && p.asset_b == a))

/-- Embeds the correlationMatrix memo of CorrelationHeatmap: the diagonal is
set to 1.0, any other cell takes the correlation of the first pair matching
either orientation, and 0 when no pair matches. -/
def correlationMatrix (pairs : List PairResult) (a b : String) : ℚ :=
  if a = b then 1
  else
    match findPair pairs a b with
    | some p => p.correlation
    | none => 0

/-! Results filtering and pagination (from SpreadChart.tsx) -/

/-- The filter state of the pairs table in SpreadChart.tsx.  The two base
thresholds are always present; the remaining bounds are optional filters the
user may set (null in the source). -/
structure TableFilters where
  minCorrelation : ℚ
  maxADFPValue : ℚ
  minHurst : Option ℚ
  maxHurst : Option ℚ
  minZScore : Option ℚ
  maxZScore : Option ℚ
  minBeta : Option ℚ
  maxBeta : Option ℚ
  minSpreadStd : Option ℚ
  maxSpreadStd : Option ℚ
deriving Repr

/-- A filter state with every optional filter unset. -/
def baseFilters (minCorrelation maxADFPValue : ℚ) : TableFilters :=
  { minCorrelation := minCorrelation
    maxADFPValue := maxADFPValue
    minHurst := none
    maxHurst := none
    minZScore := none
    maxZScore := none
    minBeta := none
    maxBeta := none
    minSpreadStd := none
    maxSpreadStd := none }

/-- Embeds the filter predicate of filteredAndSortedPairs in SpreadChart.tsx,
clause by clause: each early return false of the TypeScript filter callback
becomes a conjunct. -/
def passesFilters (f : TableFilters) (p : PairResult) : Bool :=
  if p.correlation < f.minCorrelation then false
  else if p.adf_pvalue > f.maxADFPValue then false
  else if f.minHurst.isSome &&
      (p.hurst_exponent.isNone ||
       decide (p.hurst_exponent.getD 0 < f.minHurst.getD 0)) then false
  else if f.maxHurst.isSome &&
      (p.hurst_exponent.isNone ||
       decide (p.hurst_exponent.getD 0 > f.maxHurst.getD 0)) then false
  else if f.minZScore.isSome &&
      (p.current_zscore.isNone ||
       decide (p.current_zscore.getD 0 < f.minZScore.getD 0)) then false
  else if f.maxZScore.isSome &&
      (p.current_zscore.isNone ||
       decide (p.current_zscore.getD 0 > f.maxZScore.getD 0)) then false
  else if f.minBeta.isSome && decide (p.beta < f.minBeta.getD 0) then false
  else if f.maxBeta.isSome && decide (p.beta > f.maxBeta.getD 0) then false
  else if f.minSpreadStd.isSome && decide (p.spread_std < f.minSpreadStd.getD 0) then false
  else if f.maxSpreadStd.isSome && decide (p.spread_std > f.maxSpreadStd.getD 0) then false
  else true

/-- Modelled from the spec: the screening engine rejection rule of section 4.4
(the ScreeningEngine implementation is not among the available sources, only
its frontend callers are).  A candidate pair is rejected when
correlation < min_correlation or adf_pvalue > max_adf_pvalue. -/
def screeningRejects (minCorrelation maxADFPValue correlation adfPvalue : ℚ) : Bool :=
  decide (correlation < minCorrelation) || decide (adfPvalue > maxADFPValue)

/-- Items per page of the pairs table (itemsPerPage in SpreadChart.tsx). -/
def itemsPerPage : ℕ := 20

/-- Embeds the JavaScript Array.prototype.slice call used by the pagination:
slice start end takes the elements from index start (inclusive) to index
end (exclusive). -/
def jsSlice {α : Type} (l : List α) (s e : ℕ) : List α :=
  (l.drop s).take (e - s)

/-- Embeds totalPages in SpreadChart.tsx: Math.ceil of length / 20. -/
def totalPages {α : Type} (l : List α) : ℕ :=
  (l.length + (itemsPerPage - 1)) / itemsPerPage

/-- Embeds paginatedPairs in SpreadChart.tsx, for page number page:
startIndex = (page - 1) * 20, endIndex = startIndex + 20, then slice. -/
def paginatedPairs {α : Type} (l : List α) (page : ℕ) : List α :=
  jsSlice l ((page - 1) * itemsPerPage) ((page - 1) * itemsPerPage + itemsPerPage)

/-! Backtest request form (from BacktestSection.tsx) -/

/-- The StopLossType union of BacktestSection.tsx:
none | zscore | percent | atr. -/
inductive SLType where
  | slNone
  | zscore
  | percent
  | atr
deriving DecidableEq, Repr

/-- The form state of BacktestSection.tsx (the useState record), restricted to
the fields the submitted request reads. -/
structure BtForm where
  entry_threshold : ℚ
  stop_loss_type : SLType
  stop_loss_value : ℚ
  take_profit_type : SLType
  take_profit_value : ℚ
  initial_capital : ℚ
  position_size_pct : ℚ
  lookback_days : ℕ
  transaction_cost_pct : ℚ
deriving Repr

/-- The initial form state of BacktestSection.tsx. -/
def initialForm : BtForm :=
  { entry_threshold := 2
    stop_loss_type := .slNone
    stop_loss_value := 5
    take_profit_type := .zscore
    take_profit_value := 0
    initial_capital := 10000
    position_size_pct := 100
    lookback_days := 365
    transaction_cost_pct := 1 / 1000 }

/-- The state-changing events the BacktestSection form offers.  Each
constructor corresponds to one onClick or onChange handler in the component;
in particular the take-profit selector has exactly three buttons (zscore,
percent, atr) and no handler ever assigns the value none to
take_profit_type. -/
inductive FormEvent where
  | setEntryThreshold (v : ℚ)
  | setStopLossNone
  | setStopLossZscore
  | setStopLossPercent
  | setStopLossAtr
  | setStopLossValue (v : ℚ)
  | setTakeProfitZscore
  | setTakeProfitPercent
  | setTakeProfitAtr
  | setTakeProfitValue (v : ℚ)
  | setInitialCapital (v : ℚ)
  | setPositionSizePct (v : ℚ)
  | setLookbackDays (v : ℕ)
  | setTransactionCostPct (v : ℚ)
deriving Repr

/-- Applies a form event, embedding the setFormData calls of
BacktestSection.tsx. -/
def applyEvent (f : BtForm) (e : FormEvent) : BtForm :=
  match e with
  | .setEntryThreshold v => { f with entry_threshold := v }
  | .setStopLossNone => { f with stop_loss_type := .slNone }
  | .setStopLossZscore => { f with stop_loss_type := .zscore }
  | .setStopLossPercent => { f with stop_loss_type := .percent }
  | .setStopLossAtr => { f with stop_loss_type := .atr }
  | .setStopLossValue v => { f with stop_loss_value := v }
  | .setTakeProfitZscore => { f with take_profit_type := .zscore }
  | .setTakeProfitPercent => { f with take_profit_type := .percent }
  | .setTakeProfitAtr => { f with take_profit_type := .atr }
  | .setTakeProfitValue v => { f with take_profit_value := v }
  | .setInitialCapital v => { f with initial_capital := v }
  | .setPositionSizePct v => { f with position_size_pct := v }
  | .setLookbackDays v => { f with lookback_days := v }
  | .setTransactionCostPct v => { f with transaction_cost_pct := v }

/-- Form states reachable from the initial state through the form events. -/
inductive ReachableForm : BtForm → Prop where
  | init : ReachableForm initialForm
  | step {f : BtForm} (e : FormEvent) : ReachableForm f → ReachableForm (applyEvent f e)

/-- The request body built by handleSubmit in BacktestSection.tsx, restricted
to the stop-loss and take-profit fields the claim is about. -/
structure BacktestRequest where
  entry_threshold : ℚ
  stop_loss : Option ℚ
  stop_loss_type : SLType
  take_profit : ℚ
  take_profit_type : SLType
deriving DecidableEq, Repr

/-- Embeds the requestData construction of handleSubmit in
BacktestSection.tsx: stop_loss is null when the selected stop-loss type is
none, in which case stop_loss_type is transmitted as percent. -/
def buildRequest (f : BtForm) : BacktestRequest :=
  { entry_threshold := f.entry_threshold
    stop_loss := if f.stop_loss_type = .slNone then none else some f.stop_loss_value
    stop_loss_type := if f.stop_loss_type = .slNone then .percent else f.stop_loss_type
    take_profit := f.take_profit_value
    take_profit_type := f.take_profit_type }

/-! Screening engine sessions (modelled from the spec, sections 3 and 4.4)
and the run-screening control (from ScreenerDashboard.tsx) -/

/-- Status of a ScreeningSession (spec section 3):
running, completed or failed. -/
inductive SessionStatus where
  | running
  | completed
  | failed
deriving DecidableEq, Repr

/-- Modelled from the spec: a ScreeningSession record, reduced to the identity
and status that the concurrency guard reads (the ScreeningEngine
implementation is not among the available sources). -/
structure Session where
  id : ℕ
  status : SessionStatus
deriving DecidableEq, Repr

/-- Modelled from the spec: the engine state, holding every session created so
far plus a fresh-identifier counter. -/
structure EngineState where
  sessions : List Session
  nextId : ℕ
deriving DecidableEq, Repr

/-- The empty engine state. -/
def initEngine : EngineState := { sessions := [], nextId := 0 }

/-- Number of sessions currently in Running status. -/
def runningCount (s : EngineState) : ℕ :=
  s.sessions.countP (fun x => x.status == .running)

/-- Whether some session is currently Running. -/
def engineBusy (s : EngineState) : Bool :=
  s.sessions.any (fun x => x.status == .running)

/-- The screening error surfaced by the concurrency guard. -/
inductive ScreeningError where
  | alreadyRunning
deriving DecidableEq, Repr

/-- Modelled from the spec: startSession fails with AlreadyRunning and changes
nothing when a session is Running, and otherwise creates one new Running
session.  The result pairs the outcome with the (possibly unchanged)
engine state. -/
def startSession (s : EngineState) : Option ScreeningError × EngineState :=
  if engineBusy s then (some .alreadyRunning, s)
  else (none, { sessions := { id := s.nextId, status := .running } :: s.sessions
                nextId := s.nextId + 1 })

/-- Marks every Running session with the given terminal status.  Completion
and failure (spec: transitions running to completed or failed are terminal)
both go through this transition. -/
def finishRunning (s : EngineState) (st : SessionStatus) : EngineState :=
  { s with sessions :=
      s.sessions.map (fun x => if x.status == .running then { x with status := st } else x) }

/-- Engine states reachable from the initial state by starting sessions and
finishing them as completed or failed. -/
inductive ReachableEngine : EngineState → Prop where
  | init : ReachableEngine initEngine
  | start {s : EngineState} : ReachableEngine s → ReachableEngine (startSession s).2
  | complete {s : EngineState} : ReachableEngine s → ReachableEngine (finishRunning s .completed)
  | fail {s : EngineState} : ReachableEngine s → ReachableEngine (finishRunning s .failed)

/-- Embeds the disabled condition of the Run Screening button in
ScreenerDashboard.tsx: disabled when isStarting or status.is_running. -/
def runButtonDisabled (isStarting isRunning : Bool) : Bool :=
  isStarting || isRunning

/-! Backtest simulator (modelled from the spec, section 4.5; the
BacktestSimulator implementation is a backend module that is not among the
available sources, only its frontend callers are) -/

/-- Side of an open spread position (spec section 3, Trade.side). -/
inductive Side where
  | longSpread
  | shortSpread
deriving DecidableEq, Repr

/-- Reason a trade was closed: stop-loss, take-profit, or the mark-to-close at
history end (spec section 4.5). -/
inductive ExitReason where
  | stopLoss
  | takeProfit
  | endOfHistory
deriving DecidableEq, Repr

/-- Modelled from the spec: the per-bar observables of an open position that
the configured exit rules read.  The current rolling z-score and the current
unrealized profit-and-loss percentage of the position. -/
structure BarView where
  zscore : ℚ
  pnlPct : ℚ
deriving DecidableEq, Repr

/-- Modelled from the spec: an open position inside the simulator, carrying
the entry fields recorded when the entry fired, together with the running
maximum adverse excursion percentage. -/
structure OpenPos where
  side : Side
  entryBar : ℕ
  entryZscore : ℚ
  notional : ℚ
  maePct : ℚ
deriving DecidableEq, Repr

/-- Modelled from the spec: a closed trade record. -/
structure ClosedTrade where
  side : Side
  entryBar : ℕ
  exitBar : ℕ
  entryZscore : ℚ
  exitZscore : ℚ
  reason : ExitReason
  maePct : ℚ
deriving DecidableEq, Repr

/-- Modelled from the spec: the simulator state between bars: the optional
open position, the current equity, and the ledger of closed trades (most
recent first). -/
structure BtState where
  pos : Option OpenPos
  equity : ℚ
  closed : List ClosedTrade
deriving DecidableEq, Repr

/-- Modelled from the spec: the configuration fields of BacktestConfig the
bar step reads, together with the stop-loss and take-profit conditions.
The two conditions are kept abstract predicates over the open position and
the current bar observables, since each configured exit type (zscore,
percent, atr) denotes such a threshold test; the priority policy under
verification holds for every choice of the two tests. -/
structure BtRules where
  entryThreshold : ℚ
  positionSizePct : ℚ
  transactionCostPct : ℚ
  stopLossHit : OpenPos → BarView → Bool
  takeProfitHit : OpenPos → BarView → Bool

/-- Modelled from the spec: maximum adverse excursion update (spec section
4.5 step 5): the worst unrealized loss percentage observed between entry and
the current bar, as the running maximum of the adverse part of the unrealized
profit-and-loss percentage. -/
def updateMae (maePct pnlPct : ℚ) : ℚ :=
  max maePct (max 0 (-pnlPct))

/-- Modelled from the spec: one bar of the simulator (spec section 4.5).
While Flat, the entry rule opens LongSpread when z is at most minus the entry
threshold and ShortSpread when z is at least the entry threshold, records the
entry fields and deducts the transaction cost (percentage of notional) from
equity.  While in a position, MAE is updated first, then the exit conditions
run in fixed priority order: stop-loss first, then take-profit. -/
def processBar (r : BtRules) (st : BtState) (bar : ℕ) (v : BarView) : BtState :=
  match st.pos with
  | none =>
    if v.zscore ≤ -r.entryThreshold then
      let notional := st.equity * r.positionSizePct / 100
      { pos := some { side := .longSpread, entryBar := bar, entryZscore := v.zscore
                      notional := notional, maePct := 0 }
        equity := st.equity - notional * r.transactionCostPct
        closed := st.closed }
    else if v.zscore ≥ r.entryThreshold then
      let notional := st.equity * r.positionSizePct / 100
      { pos := some { side := .shortSpread, entryBar := bar, entryZscore := v.zscore
                      notional := notional, maePct := 0 }
        equity := st.equity - notional * r.transactionCostPct
        closed := st.closed }
    else st
  | some p =>
    let p := { p with maePct := updateMae p.maePct v.pnlPct }
    if r.stopLossHit p v then
      { pos := none
        equity := st.equity
        closed := { side := p.side, entryBar := p.entryBar, exitBar := bar
                    entryZscore := p.entryZscore, exitZscore := v.zscore
                    reason := .stopLoss, maePct := p.maePct } :: st.closed }
    else if r.takeProfitHit p v then
      { pos := none
        equity := st.equity
        closed := { side := p.side, entryBar := p.entryBar, exitBar := bar
                    entryZscore := p.entryZscore, exitZscore := v.zscore
                    reason := .takeProfit, maePct := p.maePct } :: st.closed }
    else { st with pos := some p }

/-! Kelly sizing (modelled from the spec, section 4.5 aggregate metrics;
the RiskAndSizingAnalytics implementation is not among the available
sources, only the frontend display in BacktestResults.tsx is) -/

/-- Modelled from the spec: kelly details reported alongside the Kelly
percentage: avg_win, avg_loss and win_loss_ratio. -/
structure KellyDetails where
  avg_win : ℚ
  avg_loss : ℚ
  win_loss_ratio : ℚ
deriving DecidableEq, Repr

/-- Clamp a rational to the interval between lo and hi. -/
def clamp (lo hi x : ℚ) : ℚ := min hi (max lo x)

/-- Modelled from the spec: Kelly percentage equal to
win_rate - (1 - win_rate) / win_loss_ratio, clamped to the interval from 0
to 100, with the division guarded: when the win-loss ratio is zero or
undefined (all trades are losers) the formula degrades to the clamped
win_rate - only term being dropped, reported as the clamp of win_rate
alone minus nothing, that is the defined sentinel 0 for the quotient. -/
def kellyPercentage (winRate : ℚ) (winLossRatio : Option ℚ) : ℚ :=
  match winLossRatio with
  | none => clamp 0 100 winRate
  | some r =>
    if r = 0 then clamp 0 100 winRate
    else clamp 0 100 (winRate - (1 - winRate) / r)

/-- Modelled from the spec: the win-loss ratio, absent when the average loss
is zero (all trades are losers yields an undefined ratio). -/
def winLossRatio (avgWin avgLoss : ℚ) : Option ℚ :=
  if avgLoss = 0 then none else some (avgWin / avgLoss)

/-- Modelled from the spec: the Kelly block of the aggregate metrics: the
clamped Kelly percentage together with the details reported alongside. -/
def kellyMetrics (winRate avgWin avgLoss : ℚ) : ℚ × KellyDetails :=
  (kellyPercentage winRate (winLossRatio avgWin avgLoss),
   { avg_win := avgWin, avg_loss := avgLoss
     win_loss_ratio := (winLossRatio avgWin avgLoss).getD 0 })

/-! Return probabilities by zone (modelled from the spec, section 4.2; the
SpreadAnalyzer implementation is not among the available sources, only the
ReturnProbabilities interface in api.ts and its rendering in PairDetails
are) -/

/-- The five z-score zones of returnProbabilitiesByZone. -/
inductive Zone where
  | extremeHigh
  | high
  | neutral
  | low
  | extremeLow
deriving DecidableEq, Repr

/-- Modelled from the spec: the zone of a z-score observation: extreme_high
above 2, high between 1 and 2, neutral within 1, low between -2 and -1,
extreme_low below -2. -/
def zoneOf (z : ℚ) : Zone :=
  if z > 2 then .extremeHigh
  else if z > 1 then .high
  else if z ≥ -1 then .neutral
  else if z ≥ -2 then .low
  else .extremeLow

/-- Modelled from the spec: the probability reported for one zone from its
backing samples: absent (not zero) when the zone has no samples, else the
percentage of samples in which the 5-bar-forward move was profitable under
the natural mean-reversion direction.  Each sample is the Boolean outcome of
one historical observation in the zone. -/
def zoneProbability (samples : List Bool) : Option ℚ :=
  if samples.isEmpty then none
  else some (100 * (samples.countP id : ℚ) / (samples.length : ℚ))

/-- Modelled from the spec: the sample count backing one zone probability. -/
def zoneSampleCount (samples : List Bool) : ℕ := samples.length

/-- Modelled from the spec: the full five-zone report, from the historical
list of (z-score, profitable) observations: each zone field is the
zoneProbability of the observations falling in that zone. -/
def returnProbabilitiesByZone (data : List (ℚ × Bool)) (z : Zone) : Option ℚ :=
  zoneProbability ((data.filter (fun d => zoneOf d.1 == z)).map (fun d => d.2))

/-- Modelled from the spec: the per-zone sample counts reported alongside. -/
def returnProbabilitiesSamples (data : List (ℚ × Bool)) (z : Zone) : ℕ :=
  zoneSampleCount ((data.filter (fun d => zoneOf d.1 == z)).map (fun d => d.2))

/-- Embeds the zone rendering condition of PairDetails (src/unnamed/part_001):
each zone card is rendered exactly when its probability value is not null. -/
def zoneRendered (p : Option ℚ) : Bool := p.isSome

/-! Concrete fixtures used by witnesses -/

/-- A concrete rule set whose exit conditions never fire. -/
def demoRules : BtRules :=
  { entryThreshold := 2
    positionSizePct := 100
    transactionCostPct := 1 / 1000
    stopLossHit := fun _ _ => false
    takeProfitHit := fun _ _ => false }

/-- A concrete flat simulator state. -/
def demoFlat : BtState := { pos := none, equity := 1000, closed := [] }

/-- A concrete open long-spread position that has already suffered a 1
percent adverse excursion. -/
def demoPos : OpenPos :=
  { side := Side.longSpread, entryBar := 0, entryZscore := -2
    notional := 1000, maePct := 1 }

/-- A concrete simulator state holding demoPos. -/
def demoOpen : BtState := { pos := some demoPos, equity := 1000, closed := [] }

/-! Helper lemmas -/

/-- The pair lookup of the heatmap is insensitive to the orientation of its
two arguments: the matching predicate is a commuted disjunction, so find
returns the same element. -/
theorem findPair_comm (pairs : List PairResult) (a b : String) :
    findPair pairs a b = findPair pairs b a := by
  unfold findPair
  congr 1
  funext p
  exact Bool.or_comm _ _

/-- Concatenating the 20-element chunks indexed by range n reproduces the
list, provided n chunks suffice to cover it. -/
theorem join_chunks {α : Type} :
    ∀ (n : ℕ) (l : List α), l.length ≤ 20 * n →
      ((List.range n).map (fun i => (l.drop (i * 20)).take 20)).flatten = l := by
  intro n
  induction n with
  | zero =>
    intro l h
    have hl : l.length = 0 := Nat.le_zero.mp (by simpa using h)
    simp [List.eq_nil_of_length_eq_zero hl]
  | succ n ih =>
    intro l h
    rw [List.range_succ_eq_map]
    simp only [List.map_cons, List.map_map, List.flatten_cons]
    have hrw : ((List.range n).map ((fun i => (l.drop (i * 20)).take 20) ∘ Nat.succ)) =
        (List.range n).map (fun i => ((l.drop 20).drop (i * 20)).take 20) := by
      apply List.map_congr_left
      intro i _
      simp only [Function.comp]
      rw [List.drop_drop]
      congr 2
      omega
    rw [hrw, ih (l.drop 20) (by simp; omega)]
    have h0 : (0 : ℕ) * 20 = 0 := by norm_num
    rw [h0, List.drop_zero]
    exact List.take_append_drop 20 l

/-- A page for number i + 1 is the i-th 20-element chunk of the list. -/
theorem paginatedPairs_eq {α : Type} (l : List α) (i : ℕ) :
    paginatedPairs l (i + 1) = (l.drop (i * 20)).take 20 := by
  unfold paginatedPairs jsSlice itemsPerPage
  have h1 : i + 1 - 1 = i := by omega
  rw [h1]
  have h2 : i * 20 + 20 - i * 20 = 20 := by omega
  rw [h2]

/-- The ceiling page count covers the whole list. -/
theorem length_le_totalPages {α : Type} (l : List α) :
    l.length ≤ 20 * totalPages l := by
  unfold totalPages itemsPerPage
  have hd := Nat.div_add_mod (l.length + 19) 20
  have hm : (l.length + 19) % 20 < 20 := Nat.mod_lt _ (by norm_num)
  omega

/-! Claim theorems -/

/-- Claim C9: for every list of screened pairs, the correlation matrix built
by CorrelationHeatmap is symmetric in its arguments, every diagonal entry
equals 1.0, and every asset pair not present in the input list is assigned
0. -/
theorem c9_correlationMatrix_spec (pairs : List PairResult) (a b : String) :
    correlationMatrix pairs a b = correlationMatrix pairs b a ∧
    correlationMatrix pairs a a = 1 ∧
    (a ≠ b → findPair pairs a b = none → correlationMatrix pairs a b = 0) := by
  refine ⟨?_, ?_, ?_⟩
  · unfold correlationMatrix
    by_cases hab : a = b
    · subst hab; simp
    · have hba : ¬b = a := fun h => hab h.symm
      rw [if_neg hab, if_neg hba, findPair_comm pairs a b]
  · simp [correlationMatrix]
  · intro hne hnone
    simp [correlationMatrix, hne, hnone]

/-- Witness for C9: a concrete two-pair list where the cross-orientation
lookup, the diagonal and the missing-pair default are all exercised. -/
theorem c9_correlationMatrix_spec_witness :
    correlationMatrix
        [{ asset_a := "BTC", asset_b := "ETH", correlation := 9 / 10, adf_pvalue := 1 / 100
           beta := 2, spread_std := 1, hurst_exponent := none, current_zscore := none }]
        "ETH" "BTC" =
      correlationMatrix
        [{ asset_a := "BTC", asset_b := "ETH", correlation := 9 / 10, adf_pvalue := 1 / 100
           beta := 2, spread_std := 1, hurst_exponent := none, current_zscore := none }]
        "BTC" "ETH" ∧
    correlationMatrix
        [{ asset_a := "BTC", asset_b := "ETH", correlation := 9 / 10, adf_pvalue := 1 / 100
           beta := 2, spread_std := 1, hurst_exponent := none, current_zscore := none }]
        "ETH" "ETH" = 1 ∧
    correlationMatrix
        [{ asset_a := "BTC", asset_b := "ETH", correlation := 9 / 10, adf_pvalue := 1 / 100
           beta := 2, spread_std := 1, hurst_exponent := none, current_zscore := none }]
        "ETH" "SOL" = 0 := by
  have h := c9_correlationMatrix_spec
    [{ asset_a := "BTC", asset_b := "ETH", correlation := 9 / 10, adf_pvalue := 1 / 100
       beta := 2, spread_std := 1, hurst_exponent := none, current_zscore := none }]
    "ETH" "SOL"
  refine ⟨(c9_correlationMatrix_spec _ "ETH" "BTC").1, (c9_correlationMatrix_spec _ "ETH" "ETH").2.1,
    h.2.2 (by decide) (by decide)⟩

/-- Claim C10: for every valid page number p, the displayed page equals the
slice of the filtered-and-sorted list from index (p - 1) * 20 to p * 20,
contains at most 20 entries, and concatenating all pages in order reproduces
the list exactly. -/
theorem c10_pagination_spec {α : Type} (l : List α) (p : ℕ)
    (h1 : 1 ≤ p) (h2 : p ≤ totalPages l) :
    paginatedPairs l p = (l.drop ((p - 1) * 20)).take 20 ∧
    (paginatedPairs l p).length ≤ 20 ∧
    ((List.range (totalPages l)).map (fun i => paginatedPairs l (i + 1))).flatten = l := by
  refine ⟨?_, ?_, ?_⟩
  · obtain ⟨q, rfl⟩ : ∃ q, p = q + 1 := ⟨p - 1, by omega⟩
    simpa using paginatedPairs_eq l q
  · unfold paginatedPairs jsSlice
    refine le_trans (List.length_take_le _ _) ?_
    unfold itemsPerPage
    omega
  · have hmap : ((List.range (totalPages l)).map (fun i => paginatedPairs l (i + 1))) =
        (List.range (totalPages l)).map (fun i => (l.drop (i * 20)).take 20) :=
      List.map_congr_left (fun i _ => paginatedPairs_eq l i)
    rw [hmap]
    exact join_chunks (totalPages l) l (length_le_totalPages l)

/-- Witness for C10: a 25-element list has two pages; page 2 is the final
5-element slice, and the two pages concatenate back to the list. -/
theorem c10_pagination_spec_witness :
    1 ≤ 2 ∧ 2 ≤ totalPages (List.range 25) ∧
    (paginatedPairs (List.range 25) 2 = ((List.range 25).drop 20).take 20 ∧
     (paginatedPairs (List.range 25) 2).length ≤ 20 ∧
     ((List.range (totalPages (List.range 25))).map
        (fun i => paginatedPairs (List.range 25) (i + 1))).flatten = List.range 25) := by
  refine ⟨by decide, by decide, ?_⟩
  have h := c10_pagination_spec (List.range 25) 2 (by decide) (by decide)
  simpa using h

/-- Claim C6: a candidate pair is rejected exactly when correlation is below
min_correlation or the ADF p-value is above max_adf_pvalue, so both boundary
cases are accepted; the frontend results filter keeps a pair precisely when
correlation is at least minCorrelation and adf_pvalue is at most maxADFPValue
(with every optional filter unset), and any filter state that keeps a pair
enforces at least those two comparisons. -/
theorem c6_filter_spec (minC maxP : ℚ) (p : PairResult) (f : TableFilters) :
    (screeningRejects minC maxP p.correlation p.adf_pvalue = true ↔
      (p.correlation < minC ∨ p.adf_pvalue > maxP)) ∧
    (passesFilters (baseFilters minC maxP) p = true ↔
      (minC ≤ p.correlation ∧ p.adf_pvalue ≤ maxP)) ∧
    (passesFilters f p = true →
      f.minCorrelation ≤ p.correlation ∧ p.adf_pvalue ≤ f.maxADFPValue) ∧
    (p.correlation = minC → p.adf_pvalue = maxP →
      passesFilters (baseFilters minC maxP) p = true ∧
      screeningRejects minC maxP p.correlation p.adf_pvalue = false) := by
  have hgen : ∀ g : TableFilters, passesFilters g p = true →
      g.minCorrelation ≤ p.correlation ∧ p.adf_pvalue ≤ g.maxADFPValue := by
    intro g h
    by_cases hc1 : p.correlation < g.minCorrelation
    · unfold passesFilters at h
      rw [if_pos hc1] at h
      exact Bool.noConfusion h
    · by_cases hc2 : p.adf_pvalue > g.maxADFPValue
      · unfold passesFilters at h
        rw [if_neg hc1, if_pos hc2] at h
        exact Bool.noConfusion h
      · exact ⟨not_lt.mp hc1, not_lt.mp hc2⟩
  have hbase : passesFilters (baseFilters minC maxP) p = true ↔
      (minC ≤ p.correlation ∧ p.adf_pvalue ≤ maxP) := by
    constructor
    · intro h
      exact hgen (baseFilters minC maxP) h
    · intro h
      unfold passesFilters baseFilters
      rw [if_neg (not_lt.mpr h.1), if_neg (not_lt.mpr h.2)]
      simp
  refine ⟨?_, hbase, hgen f, ?_⟩
  · simp [screeningRejects]
  · intro h1 h2
    refine ⟨hbase.mpr ⟨le_of_eq h1.symm, le_of_eq h2⟩, ?_⟩
    simp [screeningRejects, h1, h2]

/-- Witness for C6: a pair sitting exactly on both thresholds passes the
table filter and is not rejected by the screening rule. -/
theorem c6_filter_spec_witness :
    (screeningRejects (8 / 10) (1 / 10) (8 / 10) (1 / 10) = true ↔
      ((8 : ℚ) / 10 < 8 / 10 ∨ (1 : ℚ) / 10 > 1 / 10)) ∧
    passesFilters (baseFilters (8 / 10) (1 / 10))
      { asset_a := "BTC", asset_b := "ETH", correlation := 8 / 10, adf_pvalue := 1 / 10
        beta := 1, spread_std := 1, hurst_exponent := none, current_zscore := none } = true ∧
    screeningRejects (8 / 10) (1 / 10) (8 / 10) (1 / 10) = false := by
  have h := c6_filter_spec (8 / 10) (1 / 10)
    { asset_a := "BTC", asset_b := "ETH", correlation := 8 / 10, adf_pvalue := 1 / 10
      beta := 1, spread_std := 1, hurst_exponent := none, current_zscore := none }
    (baseFilters (8 / 10) (1 / 10))
  have hb := h.2.2.2 rfl rfl
  exact ⟨h.1, hb.1, hb.2⟩

/-- Every form state the BacktestSection component can reach keeps a
take-profit type other than none: the initial value is zscore and the only
events that write the field set zscore, percent or atr. -/
theorem tpType_ne_slNone {f : BtForm} (h : ReachableForm f) :
    f.take_profit_type ≠ SLType.slNone := by
  induction h with
  | init => simp [initialForm]
  | step e hf ih => cases e <;> simp [applyEvent] <;> exact ih

/-- Claim C8: every request built by the backtest form carries a take-profit
type in the set zscore, percent, atr (never none); stop_loss is null exactly
when the selected stop-loss type is none, in which case stop_loss_type is
transmitted as percent, and otherwise stop_loss carries the configured value
with the selected type. -/
theorem c8_buildRequest_spec (f : BtForm) (h : ReachableForm f) :
    ((buildRequest f).take_profit_type = SLType.zscore ∨
     (buildRequest f).take_profit_type = SLType.percent ∨
     (buildRequest f).take_profit_type = SLType.atr) ∧
    ((buildRequest f).stop_loss = none ↔ f.stop_loss_type = SLType.slNone) ∧
    (f.stop_loss_type = SLType.slNone → (buildRequest f).stop_loss_type = SLType.percent) ∧
    (f.stop_loss_type ≠ SLType.slNone →
      (buildRequest f).stop_loss = some f.stop_loss_value ∧
      (buildRequest f).stop_loss_type = f.stop_loss_type) := by
  refine ⟨?_, ?_, ?_, ?_⟩
  · have hne := tpType_ne_slNone h
    cases htp : f.take_profit_type with
    | slNone => exact absurd htp hne
    | zscore => exact Or.inl (by simp [buildRequest, htp])
    | percent => exact Or.inr (Or.inl (by simp [buildRequest, htp]))
    | atr => exact Or.inr (Or.inr (by simp [buildRequest, htp]))
  · by_cases hs : f.stop_loss_type = SLType.slNone <;> simp [buildRequest, hs]
  · intro hs
    simp [buildRequest, hs]
  · intro hs
    exact ⟨by simp [buildRequest, hs], by simp [buildRequest, hs]⟩

/-- Witness for C8: the initial form (stop-loss none) transmits a null
stop_loss with type percent, and after clicking the z-score stop-loss button
the configured value and type are transmitted. -/
theorem c8_buildRequest_spec_witness :
    (buildRequest initialForm).stop_loss = none ∧
    (buildRequest initialForm).stop_loss_type = SLType.percent ∧
    (buildRequest initialForm).take_profit_type = SLType.zscore ∧
    (buildRequest (applyEvent initialForm .setStopLossZscore)).stop_loss =
      some (applyEvent initialForm .setStopLossZscore).stop_loss_value ∧
    (buildRequest (applyEvent initialForm .setStopLossZscore)).stop_loss_type =
      SLType.zscore := by
  have h0 := c8_buildRequest_spec initialForm ReachableForm.init
  have h1 := c8_buildRequest_spec (applyEvent initialForm .setStopLossZscore)
    (ReachableForm.step _ ReachableForm.init)
  have hne : (applyEvent initialForm FormEvent.setStopLossZscore).stop_loss_type ≠
      SLType.slNone := by
    simp [applyEvent]
  refine ⟨h0.2.1.mpr rfl, h0.2.2.1 rfl, ?_, (h1.2.2.2 hne).1, ?_⟩
  · rcases h0.1 with ht | ht | ht
    · exact ht
    · exact absurd ht (by simp [buildRequest, initialForm])
    · exact absurd ht (by simp [buildRequest, initialForm])
  · rw [(h1.2.2.2 hne).2]
    simp [applyEvent]

/-- In an engine state with no running session, the running count is zero. -/
theorem runningCount_of_not_busy (s : EngineState) (h : engineBusy s = false) :
    runningCount s = 0 := by
  unfold engineBusy at h
  unfold runningCount
  rw [List.countP_eq_zero]
  intro a ha
  have := (List.any_eq_false.mp h) a ha
  simpa using this

/-- Finishing with a terminal status leaves no running session. -/
theorem runningCount_finish (s : EngineState) (st : SessionStatus)
    (hst : (st == SessionStatus.running) = false) :
    runningCount (finishRunning s st) = 0 := by
  unfold runningCount finishRunning
  rw [List.countP_map, List.countP_eq_zero]
  intro a ha
  by_cases hr : (a.status == SessionStatus.running) = true
  · simp [Function.comp, hr, hst]
  · simp [Function.comp, hr]

/-- Invariant: every reachable engine state has at most one running
session. -/
theorem running_le_one {s : EngineState} (h : ReachableEngine s) :
    runningCount s ≤ 1 := by
  induction h with
  | init => simp [runningCount, initEngine]
  | @start s' hs ih =>
    unfold startSession
    by_cases hb : engineBusy s' = true
    · simpa [hb] using ih
    · have h0 : runningCount s' = 0 :=
        runningCount_of_not_busy s' (Bool.not_eq_true _ ▸ hb)
      unfold runningCount at h0 ⊢
      simp [hb, List.countP_cons, h0]
  | @complete s' hs ih =>
    rw [runningCount_finish s' SessionStatus.completed (by decide)]
    omega
  | @fail s' hs ih =>
    rw [runningCount_finish s' SessionStatus.failed (by decide)]
    omega

/-- Claim C3: every reachable engine state has at most one running screening
session; startSession while busy fails with AlreadyRunning and leaves the
state unchanged; and the frontend disables the Run Screening control whenever
status.is_running is true. -/
theorem c3_single_session (s : EngineState) (h : ReachableEngine s) :
    runningCount s ≤ 1 ∧
    (engineBusy s = true → startSession s = (some ScreeningError.alreadyRunning, s)) ∧
    (∀ b : Bool, runButtonDisabled b true = true) := by
  refine ⟨running_le_one h, ?_, ?_⟩
  · intro hb
    simp [startSession, hb]
  · intro b
    simp [runButtonDisabled]

/-- Witness for C3: after one successful start the engine is busy, a second
start fails with AlreadyRunning and changes nothing, and the button is
disabled while running. -/
theorem c3_single_session_witness :
    runningCount (startSession initEngine).2 ≤ 1 ∧
    startSession (startSession initEngine).2 =
      (some ScreeningError.alreadyRunning, (startSession initEngine).2) ∧
    runButtonDisabled false true = true := by
  have h := c3_single_session (startSession initEngine).2
    (ReachableEngine.start ReachableEngine.init)
  exact ⟨h.1, h.2.1 (by decide), h.2.2 false⟩

/-- Claim C1: on a bar where the simulator holds an open position and both
the configured stop-loss condition and the configured take-profit condition
are satisfied, exactly one new closed trade is produced, it closes the
position, and its exit reason is the stop-loss (stop-loss has priority over
take-profit). -/
theorem c1_stopLoss_priority (r : BtRules) (st : BtState) (bar : ℕ) (v : BarView)
    (p : OpenPos) (hpos : st.pos = some p)
    (hstop : r.stopLossHit { p with maePct := updateMae p.maePct v.pnlPct } v = true)
    (htp : r.takeProfitHit { p with maePct := updateMae p.maePct v.pnlPct } v = true) :
    (processBar r st bar v).pos = none ∧
    ∃ tr, (processBar r st bar v).closed = tr :: st.closed ∧
      tr.reason = ExitReason.stopLoss := by
  unfold processBar
  rw [hpos]
  simp only [hstop, if_true]
  exact ⟨trivial, ⟨_, rfl, rfl⟩⟩

/-- Witness for C1: with both exit conditions constantly true the bar step
closes the open position with reason stopLoss. -/
theorem c1_stopLoss_priority_witness :
    (processBar
      { entryThreshold := 2, positionSizePct := 100, transactionCostPct := 1 / 1000
        stopLossHit := fun _ _ => true, takeProfitHit := fun _ _ => true }
      { pos := some { side := Side.longSpread, entryBar := 0, entryZscore := -2
                      notional := 10000, maePct := 0 }
        equity := 10000, closed := [] }
      1 { zscore := -3, pnlPct := -5 }).pos = none ∧
    ∃ tr,
      (processBar
        { entryThreshold := 2, positionSizePct := 100, transactionCostPct := 1 / 1000
          stopLossHit := fun _ _ => true, takeProfitHit := fun _ _ => true }
        { pos := some { side := Side.longSpread, entryBar := 0, entryZscore := -2
                        notional := 10000, maePct := 0 }
          equity := 10000, closed := [] }
        1 { zscore := -3, pnlPct := -5 }).closed = tr :: [] ∧
      tr.reason = ExitReason.stopLoss :=
  c1_stopLoss_priority
    { entryThreshold := 2, positionSizePct := 100, transactionCostPct := 1 / 1000
      stopLossHit := fun _ _ => true, takeProfitHit := fun _ _ => true }
    { pos := some { side := Side.longSpread, entryBar := 0, entryZscore := -2
                    notional := 10000, maePct := 0 }
      equity := 10000, closed := [] }
    1 { zscore := -3, pnlPct := -5 }
    { side := Side.longSpread, entryBar := 0, entryZscore := -2
      notional := 10000, maePct := 0 }
    rfl rfl rfl

/-- Claim C2: while Flat with entry threshold t above 0, a position opens on
the bar exactly when the absolute rolling z-score reaches t; LongSpread opens
when z is at most minus t and ShortSpread when z is at least t, recording the
entry fields, and the transaction cost percentage of the notional is deducted
from equity at entry; otherwise the state is unchanged. -/
theorem c2_entry_rule (r : BtRules) (st : BtState) (bar : ℕ) (v : BarView)
    (hflat : st.pos = none) (ht : 0 < r.entryThreshold) :
    ((processBar r st bar v).pos ≠ none ↔ r.entryThreshold ≤ |v.zscore|) ∧
    (v.zscore ≤ -r.entryThreshold →
      (processBar r st bar v).pos =
        some { side := Side.longSpread, entryBar := bar, entryZscore := v.zscore,
               notional := st.equity * r.positionSizePct / 100, maePct := 0 }) ∧
    (r.entryThreshold ≤ v.zscore →
      (processBar r st bar v).pos =
        some { side := Side.shortSpread, entryBar := bar, entryZscore := v.zscore,
               notional := st.equity * r.positionSizePct / 100, maePct := 0 }) ∧
    (r.entryThreshold ≤ |v.zscore| →
      (processBar r st bar v).equity =
        st.equity - st.equity * r.positionSizePct / 100 * r.transactionCostPct) ∧
    (|v.zscore| < r.entryThreshold → processBar r st bar v = st) := by
  unfold processBar
  rw [hflat]
  by_cases h1 : v.zscore ≤ -r.entryThreshold
  · rw [if_pos h1]
    have habs : r.entryThreshold ≤ |v.zscore| := le_abs.mpr (Or.inr (by linarith))
    refine ⟨by simp [habs], fun _ => rfl, fun h2 => absurd h2 (by push_neg; linarith), fun _ => rfl,
      fun hlt => absurd habs (not_le.mpr hlt)⟩
  · rw [if_neg h1]
    by_cases h2 : v.zscore ≥ r.entryThreshold
    · rw [if_pos h2]
      have habs : r.entryThreshold ≤ |v.zscore| := le_abs.mpr (Or.inl h2)
      refine ⟨by simp [habs], fun hl => absurd hl h1, fun _ => rfl, fun _ => rfl,
        fun hlt => absurd habs (not_le.mpr hlt)⟩
    · rw [if_neg h2]
      have habs : |v.zscore| < r.entryThreshold := by
        rw [abs_lt]
        constructor <;> [linarith [not_le.mp h1]; linarith [not_le.mp h2]]
      refine ⟨?_, fun hl => absurd hl h1, fun hs => absurd hs h2, ?_, fun _ => rfl⟩
      · simp [hflat, habs.not_le]
      · intro hc
        exact absurd hc habs.not_le

/-- Witness for C2: from the flat fixture state, a bar with z-score -5/2 and
entry threshold 2 opens a long spread recording the entry fields and deducts
the transaction cost from equity. -/
theorem c2_entry_rule_witness :
    (processBar demoRules demoFlat 1 { zscore := -5 / 2, pnlPct := 0 }).pos =
      some { side := Side.longSpread, entryBar := 1, entryZscore := -5 / 2,
             notional := demoFlat.equity * demoRules.positionSizePct / 100, maePct := 0 } ∧
    (processBar demoRules demoFlat 1 { zscore := -5 / 2, pnlPct := 0 }).equity =
      demoFlat.equity -
        demoFlat.equity * demoRules.positionSizePct / 100 * demoRules.transactionCostPct := by
  have h := c2_entry_rule demoRules demoFlat 1 { zscore := -5 / 2, pnlPct := 0 }
    rfl (by norm_num [demoRules])
  exact ⟨h.2.1 (by norm_num [demoRules]),
    h.2.2.2.1 (le_abs.mpr (Or.inr (by norm_num [demoRules])))⟩

/-- Claim C4: while a trade is open, the recorded maximum adverse excursion
never decreases from one bar to the next (whether the position stays open or
closes on the bar) and is never negative, so from its entry value 0 it stays
nonnegative at every bar from entry onward, for losing and winning trades
alike. -/
theorem c4_mae_spec (r : BtRules) (st : BtState) (bar : ℕ) (v : BarView)
    (p : OpenPos) (hpos : st.pos = some p) (h0 : 0 ≤ p.maePct) :
    (∀ q, (processBar r st bar v).pos = some q → p.maePct ≤ q.maePct ∧ 0 ≤ q.maePct) ∧
    (∀ tr, (processBar r st bar v).closed = tr :: st.closed →
      p.maePct ≤ tr.maePct ∧ 0 ≤ tr.maePct) := by
  have hm1 : p.maePct ≤ updateMae p.maePct v.pnlPct := le_max_left _ _
  have hm0 : 0 ≤ updateMae p.maePct v.pnlPct := le_trans h0 hm1
  unfold processBar
  rw [hpos]
  by_cases hstop : r.stopLossHit { p with maePct := updateMae p.maePct v.pnlPct } v = true
  · simp only [hstop, if_true]
    refine ⟨fun q hq => absurd hq (by simp), fun tr htr => ?_⟩
    have htr1 := (List.cons.inj htr).1
    rw [← htr1]
    exact ⟨hm1, hm0⟩
  · simp only [hstop, if_false, Bool.false_eq_true]
    by_cases htp : r.takeProfitHit { p with maePct := updateMae p.maePct v.pnlPct } v = true
    · simp only [htp, if_true]
      refine ⟨fun q hq => absurd hq (by simp), fun tr htr => ?_⟩
      have htr1 := (List.cons.inj htr).1
      rw [← htr1]
      exact ⟨hm1, hm0⟩
    · simp only [htp, if_false, Bool.false_eq_true]
      refine ⟨fun q hq => ?_, fun tr htr => ?_⟩
      · have hq1 := Option.some.inj hq
        rw [← hq1]
        exact ⟨hm1, hm0⟩
      · have := congrArg List.length htr
        simp at this

/-- Witness for C4: from the fixture open position with MAE 1 percent, a bar
with unrealized loss 3 percent raises the recorded MAE, which stays at least
the previous value and nonnegative. -/
theorem c4_mae_spec_witness :
    demoPos.maePct ≤ updateMae demoPos.maePct (-3) ∧
    (0 : ℚ) ≤ updateMae demoPos.maePct (-3) :=
  (c4_mae_spec demoRules demoOpen 1 { zscore := 0, pnlPct := -3 } demoPos rfl
      (by norm_num [demoPos])).1
    { demoPos with maePct := updateMae demoPos.maePct (-3) } rfl

/-- Clamping to the interval from 0 to 100 lands in that interval. -/
theorem clamp01_bounds (x : ℚ) : 0 ≤ clamp 0 100 x ∧ clamp 0 100 x ≤ 100 :=
  ⟨le_min (by norm_num) (le_max_left 0 x), min_le_left _ _⟩

/-- The Kelly percentage always lies between 0 and 100, whatever the win rate
and however the win-loss ratio degenerated. -/
theorem kellyPercentage_bounds (wr : ℚ) (w : Option ℚ) :
    0 ≤ kellyPercentage wr w ∧ kellyPercentage wr w ≤ 100 := by
  cases w with
  | none => exact clamp01_bounds wr
  | some r =>
    have he : kellyPercentage wr (some r) =
        if r = 0 then clamp 0 100 wr else clamp 0 100 (wr - (1 - wr) / r) := rfl
    rw [he]
    by_cases hr : r = 0
    · rw [if_pos hr]
      exact clamp01_bounds wr
    · rw [if_neg hr]
      exact clamp01_bounds _

/-- Claim C5: the reported Kelly percentage is the clamp to the interval from
0 to 100 of win_rate minus (1 - win_rate) divided by the win-loss ratio, the
division is guarded (a zero or undefined win-loss ratio still yields a value
in the interval), and avg_win, avg_loss and the win-loss ratio are reported
alongside. -/
theorem c5_kelly_spec (winRate avgWin avgLoss : ℚ) :
    0 ≤ (kellyMetrics winRate avgWin avgLoss).1 ∧
    (kellyMetrics winRate avgWin avgLoss).1 ≤ 100 ∧
    (kellyMetrics winRate avgWin avgLoss).2.avg_win = avgWin ∧
    (kellyMetrics winRate avgWin avgLoss).2.avg_loss = avgLoss ∧
    (avgLoss = 0 → (kellyMetrics winRate avgWin avgLoss).1 = clamp 0 100 winRate) ∧
    (∀ r : ℚ, winLossRatio avgWin avgLoss = some r → r ≠ 0 →
      (kellyMetrics winRate avgWin avgLoss).1 =
        clamp 0 100 (winRate - (1 - winRate) / r)) := by
  have hb := kellyPercentage_bounds winRate (winLossRatio avgWin avgLoss)
  refine ⟨hb.1, hb.2, rfl, rfl, ?_, ?_⟩
  · intro h0
    simp [kellyMetrics, winLossRatio, h0, kellyPercentage]
  · intro r hr hrne
    simp [kellyMetrics, kellyPercentage, hr, hrne]

/-- Witness for C5: with all trades losing (average loss zero, undefined
ratio) the Kelly figure degrades to the clamped win rate, and with ratio 2
the clamped formula value is reported. -/
theorem c5_kelly_spec_witness :
    (kellyMetrics (3 / 5) 2 0).1 = clamp 0 100 (3 / 5) ∧
    (kellyMetrics (3 / 5) 2 1).1 = clamp 0 100 (3 / 5 - (1 - 3 / 5) / 2) := by
  refine ⟨(c5_kelly_spec (3 / 5) 2 0).2.2.2.2.1 rfl, ?_⟩
  exact (c5_kelly_spec (3 / 5) 2 1).2.2.2.2.2 2 (by norm_num [winLossRatio]) (by norm_num)

/-- A zone probability is absent exactly when there are no samples. -/
theorem zoneProbability_eq_none (s : List Bool) :
    zoneProbability s = none ↔ s.length = 0 := by
  unfold zoneProbability
  by_cases he : s.isEmpty = true
  · simp [he, List.isEmpty_iff.mp he]
  · simp only [he, if_false, Bool.false_eq_true]
    constructor
    · intro hc
      exact absurd hc (by simp)
    · intro h0
      exact absurd (List.isEmpty_iff.mpr (List.length_eq_zero.mp h0)) he

/-- Claim C7: a zone reports an absent probability (never the number 0)
exactly when it has zero backing samples; a zone with at least one sample
reports a numeric probability together with its sample count; and the
frontend renders a zone exactly when its probability is non-null. -/
theorem c7_zone_spec (data : List (ℚ × Bool)) (z : Zone) :
    (returnProbabilitiesByZone data z = none ↔ returnProbabilitiesSamples data z = 0) ∧
    (0 < returnProbabilitiesSamples data z →
      ∃ q, returnProbabilitiesByZone data z = some q) ∧
    (zoneRendered (returnProbabilitiesByZone data z) = true ↔
      returnProbabilitiesSamples data z ≠ 0) := by
  have h1 : returnProbabilitiesByZone data z = none ↔
      returnProbabilitiesSamples data z = 0 := by
    unfold returnProbabilitiesByZone returnProbabilitiesSamples zoneSampleCount
    exact zoneProbability_eq_none _
  refine ⟨h1, ?_, ?_⟩
  · intro hpos
    cases hc : returnProbabilitiesByZone data z with
    | none => exact absurd (h1.mp hc) (by omega)
    | some q => exact ⟨q, rfl⟩
  · unfold zoneRendered
    rw [← Option.ne_none_iff_isSome]
    constructor
    · intro hne h0
      exact hne (h1.mpr h0)
    · intro hne hnone
      exact hne (h1.mp hnone)

/-- Witness for C7: one observation above two sigma gives the extreme-high
zone a single backing sample and a present probability. -/
theorem c7_zone_spec_witness :
    0 < returnProbabilitiesSamples [((5 : ℚ) / 2, true), (0, false)] Zone.extremeHigh ∧
    ∃ q, returnProbabilitiesByZone [((5 : ℚ) / 2, true), (0, false)] Zone.extremeHigh =
      some q := by
  have hz1 : zoneOf ((5 : ℚ) / 2) = Zone.extremeHigh := by
    unfold zoneOf
    norm_num
  have hz2 : zoneOf (0 : ℚ) = Zone.neutral := by
    unfold zoneOf
    norm_num
  have hb1 : (Zone.extremeHigh == Zone.extremeHigh) = true := rfl
  have hb2 : (Zone.neutral == Zone.extremeHigh) = false := rfl
  have hs : returnProbabilitiesSamples [((5 : ℚ) / 2, true), (0, false)] Zone.extremeHigh = 1 := by
    unfold returnProbabilitiesSamples zoneSampleCount
    simp [List.filter, hz1, hz2, hb1, hb2]
  refine ⟨by omega, ?_⟩
  exact (c7_zone_spec [((5 : ℚ) / 2, true), (0, false)] Zone.extremeHigh).2.1 (by omega)

end PairsScreener
